import Mathlib

/-!
Verification of the local-filesystem provider (`tokenring-ai/local-filesystem`).

The development shallowly embeds the path arithmetic and the operations of
`src/LocalFileSystemProvider.ts` (the current TypeScript provider) and, where a
claim cites it, the legacy JavaScript copy of the service
(`src/unnamed/part_000`).  Node's `path` module is modelled with POSIX
semantics on code-point lists; filesystem state is an explicit oracle passed to
the operations that consult it; subprocess execution is an explicit outcome
oracle.  JavaScript string/number idioms (`x || d`, `s.trim()`, `s.includes`)
are modelled by small helper functions defined below.
-/

/-! ## Model of Node `path` (POSIX) and JavaScript string idioms -/

instance {ε α : Type} [DecidableEq ε] [DecidableEq α] : DecidableEq (Except ε α) := fun x y =>
  match x, y with
  | .ok a, .ok b =>
    if h : a = b then isTrue (by rw [h]) else isFalse (fun hh => h (by injection hh))
  | .error a, .error b =>
    if h : a = b then isTrue (by rw [h]) else isFalse (fun hh => h (by injection hh))
  | .ok _, .error _ => isFalse (fun hh => Except.noConfusion hh)
  | .error _, .ok _ => isFalse (fun hh => Except.noConfusion hh)

/-- Model of `path.isAbsolute(p)` (POSIX): the path starts with a slash. -/
def isAbsolutePath (p : String) : Bool := p.toList.headI = '/'

/-- Split a list of characters on `/`, dropping empty segments.  Auxiliary for
`splitSegs`; `acc` holds the (reversed) characters of the current segment. -/
def splitAux : List Char → List Char → List String
  | [], acc => if acc.isEmpty then [] else [String.mk acc.reverse]
  | c :: rest, acc =>
    if c = '/' then
      if acc.isEmpty then splitAux rest [] else String.mk acc.reverse :: splitAux rest []
    else splitAux rest (c :: acc)

/-- Segments of a POSIX path string: the non-empty components between slashes
(`"."` and `".."` are kept; normalisation happens in `normSegs`). -/
def splitSegs (p : String) : List String := splitAux p.toList []

/-- One step of POSIX path normalisation from an absolute base: `"."` is
dropped, `".."` pops the last segment (a no-op at the root), anything else is
appended. -/
def normStep (acc : List String) (s : String) : List String :=
  if s = "." then acc
  else if s = ".." then acc.dropLast
  else acc ++ [s]

/-- Normalise the segments of an absolute path, resolving `"."` and `".."` as
`path.resolve` does. -/
def normSegs (segs : List String) : List String := segs.foldl normStep []

/-- Render a segment list as an absolute path string. -/
def renderAbs (segs : List String) : String := "/" ++ String.intercalate "/" segs

/-- Render a segment list as a relative path string (segments joined by `/`). -/
def renderRel (segs : List String) : String := String.intercalate "/" segs

/-- Model of `path.resolve(root, p)` for an absolute `root`, as a normalised
segment list: an absolute `p` resolves on its own, a relative `p` resolves
against `root`. -/
def resolveSegs (root p : String) : List String :=
  if isAbsolutePath p then normSegs (splitSegs p)
  else normSegs (splitSegs root ++ splitSegs p)

/-- Model of `path.resolve(root, p)` for an absolute `root`, as a string. -/
def resolvePath (root p : String) : String := renderAbs (resolveSegs root p)

/-- Drop the common leading segments of two segment lists (auxiliary for
`path.relative`). -/
def dropCommon : List String → List String → List String × List String
  | a :: as, b :: bs => if a = b then dropCommon as bs else (a :: as, b :: bs)
  | as, bs => (as, bs)

/-- Model of `path.relative(root, p)` for absolute `root` and `p`: both sides
are resolved, the common prefix is dropped, and the remainder of the `root`
side becomes `".."` segments. -/
def relativePath (root p : String) : String :=
  let f := resolveSegs "/" root
  let t := resolveSegs "/" p
  let (fr, tr) := dropCommon f t
  renderRel (List.replicate fr.length ".." ++ tr)

/-- Model of `s.startsWith(pre)` that evaluates in the kernel. -/
def startsWithStr (s pre : String) : Bool := pre.toList.isPrefixOf s.toList

/-- Model of `s.endsWith("/")`: the last character is a slash. -/
def endsWithSlash (s : String) : Bool := s.toList.getLast? = some '/'

/-- Model of `s.substring(n)` on code points. -/
def dropStr (n : Nat) (s : String) : String := String.mk (s.toList.drop n)

/-- JavaScript whitespace test for `trim` (space, tab, newline, carriage
return, form feed, vertical tab). -/
def isJsWhitespace (c : Char) : Bool :=
  c = ' ' || c = '\t' || c = '\n' || c = '\r' || c = '\x0c' || c = '\x0b'

/-- Model of `s.trim()`: strip `isJsWhitespace` characters from both ends. -/
def jsTrim (s : String) : String :=
  String.mk (((s.toList.dropWhile isJsWhitespace).reverse.dropWhile isJsWhitespace).reverse)

/-- Model of the JavaScript idiom `x ?? d` / `x?.trim?.() ?? ""` applied to a
possibly-undefined string: trim it when present, otherwise the empty string. -/
def jsTrimOpt (o : Option String) : String := (o.map jsTrim).getD ""

/-- Model of `a || b` on strings: the empty string is falsy. -/
def jsOrStr (a b : String) : String := if a = "" then b else a

/-- Model of `a || b` on numbers: `0` is falsy (`NaN` is outside the model). -/
def jsOrInt (a b : Int) : Int := if a = 0 then b else a

/-! ## PathResolver

`relativeOrAbsolutePathToAbsolutePath` from `src/LocalFileSystemProvider.ts`
(lines 43-53): an absolute input is containment-checked via `path.relative`
and returned verbatim; a relative input is resolved against the root with no
further check.  Errors model thrown exceptions. -/

/-- Embedding of `LocalFileSystemProvider.relativeOrAbsolutePathToAbsolutePath`.
The body is pure path arithmetic: no filesystem primitive occurs in the
source. -/
def relativeOrAbsolutePathToAbsolutePath (rootDirectory p : String) : Except String String :=
  if isAbsolutePath p then
    let relPath := relativePath rootDirectory p
    if startsWithStr relPath ".." || isAbsolutePath relPath then
      Except.error ("Path " ++ p ++ " is outside the root directory")
    else Except.ok p
  else Except.ok (resolvePath rootDirectory p)

/-- Containment in the sense of the specification: the normalised form of `q`
lies at or below the normalised form of `root`. -/
def withinRoot (root q : String) : Bool :=
  (normSegs (splitSegs root)).isPrefixOf (normSegs (splitSegs q))

/-! ## Legacy resolver (src/unnamed/part_000, lines 47-66)

The legacy JavaScript service resolves absolute inputs by probing the
filesystem with `fs.existsSync` before any containment check.  Its call
`p.replace(/\/[^\/]+\.[a-zA-Z0-9]+/)` passes no replacement, so JavaScript
substitutes the string `"undefined"` for the first match of the pattern
(a slash, one or more non-slash characters, a dot, one or more
alphanumerics); `jsReplaceUndefined` models that replacement. -/

/-- ASCII letter-or-digit test, modelling the character class `[a-zA-Z0-9]`. -/
def isAlnumAscii (c : Char) : Bool :=
  ('a' ≤ c && c ≤ 'z') || ('A' ≤ c && c ≤ 'Z') || ('0' ≤ c && c ≤ '9')

/-- Length of the match of `[^\/]+\.[a-zA-Z0-9]+` at the start of `cs` (the
characters following a slash), if any: the greedy `[^\/]+` backtracks to the
last dot of the slash-free run that is followed by an alphanumeric, and the
extension is the maximal alphanumeric run after that dot. -/
def regexMatchLen (cs : List Char) : Option Nat :=
  let seg := cs.takeWhile (fun c => c ≠ '/')
  match ((List.range seg.length).filter (fun k =>
      decide (1 ≤ k) && (seg.getD k ' ' == '.') && decide (k + 1 < seg.length)
        && isAlnumAscii (seg.getD (k + 1) ' '))).getLast? with
  | none => none
  | some k => some (k + 1 + ((seg.drop (k + 1)).takeWhile isAlnumAscii).length)

/-- Model of `p.replace(/\/[^\/]+\.[a-zA-Z0-9]+/, "undefined")`: replace the
leftmost match (a slash followed by a `regexMatchLen` match) and keep the
rest. -/
def jsReplaceUndefined : List Char → List Char
  | [] => []
  | c :: rest =>
    if c = '/' then
      match regexMatchLen rest with
      | some m => "undefined".toList ++ rest.drop m
      | none => c :: jsReplaceUndefined rest
    else c :: jsReplaceUndefined rest

/-- Embedding of the legacy `relativeOrAbsolutePathToAbsolutePath` of
`src/unnamed/part_000` (lines 47-66).  `fsExistsSync` is the filesystem
oracle consulted by its two `fs.existsSync` probes. -/
def legacyRelativeOrAbsolutePathToAbsolutePath (rootDirectory p : String)
    (fsExistsSync : String → Bool) : Except String String :=
  if !isAbsolutePath p then Except.ok (resolvePath rootDirectory p)
  else
    let resolved := resolvePath rootDirectory p
    if fsExistsSync resolved then Except.ok resolved
    else
      let withoutFile := String.mk (jsReplaceUndefined p.toList)
      let resolved2 := resolvePath rootDirectory withoutFile
      if fsExistsSync resolved2 then Except.ok (resolvePath rootDirectory p)
      else
        let relPath := relativePath rootDirectory p
        if startsWithStr relPath ".." || isAbsolutePath relPath then
          Except.error ("Path " ++ p ++ " is outside the root directory")
        else Except.ok (resolvePath rootDirectory p)

/-- A filesystem-reading program: a computation that may consult the
existence oracle and may fail.  Used to state filesystem-(in)dependence. -/
def FsRead (α : Type) : Type := (String → Bool) → Except String α

/-- The current provider resolver viewed as a filesystem-reading program.
Its TypeScript body (`src/LocalFileSystemProvider.ts` lines 43-53) contains
no filesystem call, so the program never consults the oracle. -/
def relativeOrAbsolutePathToAbsolutePathProg (rootDirectory p : String) : FsRead String :=
  fun _fsExistsSync => relativeOrAbsolutePathToAbsolutePath rootDirectory p

-- sanity checks of the path model
example : splitSegs "/root//a/b/" = ["root", "a", "b"] := by decide
example : resolvePath "/root" "../x" = "/x" := by decide
example : relativePath "/root" "/root/sub/f.txt" = "sub/f.txt" := by decide
example : relativePath "/root" "/etc/passwd" = "../etc/passwd" := by decide
example : relativePath "/root" "/root" = "" := by decide
example : String.mk (jsReplaceUndefined "/etc/passwd".toList) = "/etc/passwd" := by decide
example : String.mk (jsReplaceUndefined "/root/a.txt".toList) = "/rootundefined" := by decide

/-- C1: the claim asserts that no relative input, including parent-traversal
inputs such as `"../x"`, can resolve outside the root.  The relative branch of
the resolver performs no containment check: under root `/root` the input
`"../x"` resolves to `/x`, which is outside the root, and no error is
raised. -/
theorem c1_relative_traversal_escapes_root :
    relativeOrAbsolutePathToAbsolutePath "/root" "../x" = Except.ok "/x" ∧
      withinRoot "/root" "/x" = false ∧ withinRoot "/root" "/root/sub" = true := by
  decide

/-- C2 counterexample: the legacy resolver of `src/unnamed/part_000` consults
`fs.existsSync`, and two calls with the same root and input return different
results under different filesystem states: when `/etc/passwd` exists it is
returned (escaping the root), when nothing exists the containment check
raises. -/
theorem c2_legacy_resolver_depends_on_fs_state :
    legacyRelativeOrAbsolutePathToAbsolutePath "/root" "/etc/passwd"
        (fun s => s == "/etc/passwd") = Except.ok "/etc/passwd" ∧
      legacyRelativeOrAbsolutePathToAbsolutePath "/root" "/etc/passwd"
        (fun _ => false) =
        Except.error "Path /etc/passwd is outside the root directory" := by
  decide

/-- C2 (amended): the current provider resolver
(`src/LocalFileSystemProvider.ts`) is a pure function of the pair (root,
input): as a filesystem-reading program it returns the same result under any
two filesystem states, performing no filesystem access. -/
theorem c2_current_resolver_independent_of_fs_state
    (rootDirectory p : String) (fs1 fs2 : String → Bool) :
    relativeOrAbsolutePathToAbsolutePathProg rootDirectory p fs1 =
      relativeOrAbsolutePathToAbsolutePathProg rootDirectory p fs2 := rfl

/-! ## CommandRunner (`executeCommand`, src/LocalFileSystemProvider.ts lines 241-289)

The subprocess itself is external: the outcome of the `execa` call is an
oracle, either a resolved result (`ExecSuccess`) or a rejection error object
(`ExecFailure`).  The `throw` of `"Command array cannot be empty"` occurs
inside the `try` block of the source, so it is modelled as an `ExecFailure`
whose only populated field is `message`, exactly as the `catch` clause sees
the thrown `Error`.  Raised errors (outside the `try`) are `Except.error`. -/

/-- The `command` argument: a shell string or an argument vector. -/
inductive CommandArg where
  | str (s : String) : CommandArg
  | arr (elems : List String) : CommandArg
deriving DecidableEq

/-- Model of JavaScript falsiness of the `command` argument: absent (`none`)
or the empty string; an array, even empty, is truthy. -/
def commandFalsy : Option CommandArg → Bool
  | none => true
  | some (.str s) => s = ""
  | some (.arr _) => false

/-- Resolved value of an `execa` call (fields used by the source). -/
structure ExecSuccess where
  stdout : Option String
  stderr : Option String
  exitCode : Int
deriving DecidableEq

/-- Rejection error object of an `execa` call (fields used by the source);
also the shape of a thrown `Error`, whose only populated field is
`message`. -/
structure ExecFailure where
  exitCode : Option Int
  stdout : Option String
  stderr : Option String
  shortMessage : Option String
  message : String
deriving DecidableEq

/-- Options of `executeCommand` used by the claims (`env` is irrelevant to
them and omitted); `none` models an absent property. -/
structure ExecuteCommandOptions where
  timeoutSeconds : Option Int := none
  workingDirectory : Option String := none
deriving DecidableEq

/-- Result shape of `executeCommand` (`error` is absent on success). -/
structure ExecuteCommandResult where
  ok : Bool
  exitCode : Int
  stdout : String
  stderr : String
  error : Option String
deriving DecidableEq

/-- Embedding of `const timeout = Math.max(5, Math.min(timeoutSeconds || 60, 600))`
together with the destructuring default `timeoutSeconds = 60`: the effective
timeout in seconds used by `executeCommand`. -/
def executeCommandTimeout (timeoutSecondsOpt : Option Int) : Int :=
  let timeoutSeconds := timeoutSecondsOpt.getD 60
  max 5 (min (jsOrInt timeoutSeconds 60) 600)

/-- Diagnostic message built by the `catch` clause:
`err.shortMessage || err.message || "Unknown error"`. -/
def commandErrorMessage (err : ExecFailure) : String :=
  jsOrStr (err.shortMessage.getD "") (jsOrStr err.message "Unknown error")

/-- Embedding of `LocalFileSystemProvider.executeCommand`.  `execa` is the
outcome of the spawned subprocess; the empty-array `throw` happens inside the
`try`, so it becomes an `ExecFailure` handled by the same `catch` clause. -/
def executeCommand (rootDirectory : String) (command : Option CommandArg)
    (options : ExecuteCommandOptions) (execa : Except ExecFailure ExecSuccess) :
    Except String ExecuteCommandResult :=
  let workingDirectory := options.workingDirectory.getD "./"
  if commandFalsy command then Except.error "Command is required"
  else
    match relativeOrAbsolutePathToAbsolutePath rootDirectory workingDirectory with
    | Except.error e => Except.error e
    | Except.ok _cwd =>
      let _timeout := executeCommandTimeout options.timeoutSeconds
      let outcome : Except ExecFailure ExecSuccess :=
        match command with
        | some (.arr cmdArr) =>
          if cmdArr.length = 0 then
            Except.error
              { exitCode := none, stdout := none, stderr := none, shortMessage := none,
                message := "Command array cannot be empty" }
          else execa
        | _ => execa
      match outcome with
      | Except.ok result =>
        Except.ok
          { ok := true, exitCode := result.exitCode,
            stdout := jsTrimOpt result.stdout, stderr := jsTrimOpt result.stderr,
            error := none }
      | Except.error err =>
        Except.ok
          { ok := false, exitCode := err.exitCode.getD 1,
            stdout := jsTrimOpt err.stdout, stderr := jsTrimOpt err.stderr,
            error := some (commandErrorMessage err) }

-- sanity checks of the command model
example :
    executeCommand "/root" (some (.str "echo hello")) {}
        (Except.ok { stdout := some "hello\n", stderr := some "", exitCode := 0 }) =
      Except.ok { ok := true, exitCode := 0, stdout := "hello", stderr := "", error := none } := by
  decide

/-- C3 counterexample: the claim asserts `timeoutSeconds: 0` yields an
effective timeout of 5 (the clamp of 0 into the range 5..600), but `0` is
falsy in `timeoutSeconds || 60`, so the code substitutes the default 60
before clamping: the effective timeout at 0 is 60, not 5. -/
theorem c3_timeout_zero_gives_default_sixty :
    executeCommandTimeout (some 0) = 60 ∧ max 5 (min (0 : Int) 600) = 5 := by decide

/-- C3 (amended): the effective timeout always lies in the inclusive range
5..600; any non-zero requested value is clamped into that range (negative
values and values above 600 included, and 10000 yields 600); the falsy value
0 and an absent value both fall back to the default 60 before clamping. -/
theorem c3_effective_timeout_clamped (timeoutSecondsOpt : Option Int) :
    5 ≤ executeCommandTimeout timeoutSecondsOpt ∧
      executeCommandTimeout timeoutSecondsOpt ≤ 600 ∧
      (∀ v : Int, timeoutSecondsOpt = some v → v ≠ 0 →
        executeCommandTimeout timeoutSecondsOpt = max 5 (min v 600)) ∧
      executeCommandTimeout (some 0) = 60 ∧
      executeCommandTimeout none = 60 ∧
      executeCommandTimeout (some 10000) = 600 := by
  refine ⟨?_, ?_, ?_, by decide, by decide, by decide⟩
  · unfold executeCommandTimeout
    exact le_max_left _ _
  · unfold executeCommandTimeout jsOrInt
    rcases timeoutSecondsOpt with _ | v <;> simp only [Option.getD] <;> split <;> omega
  · intro v hv hne
    subst hv
    unfold executeCommandTimeout jsOrInt
    simp only [Option.getD]
    split
    · omega
    · rfl

/-- C3 witness: the amended clamp evaluated at the concrete input 700. -/
theorem c3_effective_timeout_clamped_witness :
    executeCommandTimeout (some 700) = max 5 (min (700 : Int) 600) :=
  (c3_effective_timeout_clamped (some 700)).2.2.1 700 rfl (by decide)

/-- Helper: the diagnostic message of the `catch` clause is never empty,
because `||` falls through to the literal `"Unknown error"`. -/
theorem commandErrorMessage_ne_empty (err : ExecFailure) : commandErrorMessage err ≠ "" := by
  unfold commandErrorMessage jsOrStr
  split_ifs with h1 h2
  · decide
  · exact h2
  · exact h1

/-- C4 counterexample: an argument-array command with zero elements does not
raise: the `throw` sits inside the `try` block, so the provider's own `catch`
converts it into a failure result with exit code 1 and the diagnostic
`"Command array cannot be empty"`. -/
theorem c4_empty_array_returns_failure_result :
    executeCommand "/root" (some (.arr [])) {}
        (Except.ok { stdout := none, stderr := none, exitCode := 0 }) =
      Except.ok
        { ok := false, exitCode := 1, stdout := "", stderr := "",
          error := some "Command array cannot be empty" } := by
  decide

/-- C4 (amended): `executeCommand` raises synchronously exactly when the
command argument is empty or absent, or when the working directory fails the
containment check; an argument-array with zero elements does not raise but
yields a failure result with the diagnostic `"Command array cannot be
empty"`. -/
theorem c4_raises_only_for_falsy_command_or_unresolvable_cwd (rootDirectory : String)
    (command : Option CommandArg) (options : ExecuteCommandOptions)
    (execa : Except ExecFailure ExecSuccess) :
    ((∃ e, executeCommand rootDirectory command options execa = Except.error e) ↔
      (commandFalsy command = true ∨
        ∃ e, relativeOrAbsolutePathToAbsolutePath rootDirectory
          (options.workingDirectory.getD "./") = Except.error e)) ∧
    (∀ cwd, relativeOrAbsolutePathToAbsolutePath rootDirectory
        (options.workingDirectory.getD "./") = Except.ok cwd →
      executeCommand rootDirectory (some (.arr [])) options execa =
        Except.ok
          { ok := false, exitCode := 1, stdout := "", stderr := "",
            error := some "Command array cannot be empty" }) := by
  constructor
  · by_cases hc : commandFalsy command = true
    · simp only [executeCommand, hc, if_true]
      exact iff_of_true ⟨"Command is required", rfl⟩ (by simp)
    · have hc' : commandFalsy command = false := by
        revert hc
        cases commandFalsy command <;> simp
      cases hr : relativeOrAbsolutePathToAbsolutePath rootDirectory
          (options.workingDirectory.getD "./") with
      | error e =>
        simp only [executeCommand, hc', Bool.false_eq_true, if_false, hr]
        exact iff_of_true ⟨e, rfl⟩ (Or.inr ⟨e, rfl⟩)
      | ok cwd =>
        simp only [executeCommand, hc', Bool.false_eq_true, if_false, hr]
        refine iff_of_false ?_ ?_
        · rintro ⟨e, he⟩
          rcases command with _ | c
          · exact absurd hc' (by simp [commandFalsy])
          · rcases c with s | xs
            · cases hx : execa <;> simp [hx] at he
            · by_cases hlen : xs.length = 0
              · simp [hlen] at he
              · cases hx : execa <;> simp [hlen, hx] at he
        · rintro (h | ⟨e, he⟩)
          · exact h
          · exact Except.noConfusion he
  · intro cwd hcwd
    simp only [executeCommand, hcwd]
    rfl

/-- C4 witness: the amended raise characterisation applied at the concrete
root `/root` with an empty argument array and the default working
directory. -/
theorem c4_raises_only_witness :
    executeCommand "/root" (some (.arr [])) {}
        (Except.ok { stdout := none, stderr := none, exitCode := 1 }) =
      Except.ok
        { ok := false, exitCode := 1, stdout := "", stderr := "",
          error := some "Command array cannot be empty" } :=
  (c4_raises_only_for_falsy_command_or_unresolvable_cwd "/root" (some (.arr [])) {}
      (Except.ok { stdout := none, stderr := none, exitCode := 1 })).2 "/root" (by decide)

/-- C5: once a non-empty command reaches the spawn attempt (command not
falsy, working directory resolvable, argument-array form non-empty),
`executeCommand` never raises: a subprocess failure yields a result with
`ok := false`, the captured exit code when it is a number and 1 otherwise,
trimmed stdout and stderr, and a non-empty diagnostic message; a subprocess
success yields `ok := true` with the exit code and trimmed output. -/
theorem c5_spawned_command_never_raises (rootDirectory : String)
    (command : Option CommandArg) (options : ExecuteCommandOptions)
    (execa : Except ExecFailure ExecSuccess) (cwd : String)
    (hcommand : commandFalsy command = false)
    (hcwd : relativeOrAbsolutePathToAbsolutePath rootDirectory
      (options.workingDirectory.getD "./") = Except.ok cwd)
    (harr : ∀ xs, command = some (.arr xs) → xs ≠ []) :
    (∀ err, execa = Except.error err →
      executeCommand rootDirectory command options execa =
          Except.ok
            { ok := false, exitCode := err.exitCode.getD 1,
              stdout := jsTrimOpt err.stdout, stderr := jsTrimOpt err.stderr,
              error := some (commandErrorMessage err) } ∧
        commandErrorMessage err ≠ "") ∧
    (∀ result, execa = Except.ok result →
      executeCommand rootDirectory command options execa =
        Except.ok
          { ok := true, exitCode := result.exitCode,
            stdout := jsTrimOpt result.stdout, stderr := jsTrimOpt result.stderr,
            error := none }) := by
  have houtcome :
      executeCommand rootDirectory command options execa =
        match execa with
        | Except.ok result =>
          Except.ok
            { ok := true, exitCode := result.exitCode,
              stdout := jsTrimOpt result.stdout, stderr := jsTrimOpt result.stderr,
              error := none }
        | Except.error err =>
          Except.ok
            { ok := false, exitCode := err.exitCode.getD 1,
              stdout := jsTrimOpt err.stdout, stderr := jsTrimOpt err.stderr,
              error := some (commandErrorMessage err) } := by
    simp only [executeCommand, hcommand, Bool.false_eq_true, if_false, hcwd]
    rcases command with _ | c
    · exact absurd hcommand (by simp [commandFalsy])
    · rcases c with s | xs
      · rfl
      · have hxs : xs ≠ [] := harr xs rfl
        have hlen : ¬(xs.length = 0) := fun h => hxs (List.length_eq_zero.mp h)
        simp [hlen]
  constructor
  · intro err herr
    subst herr
    exact ⟨houtcome, commandErrorMessage_ne_empty err⟩
  · intro result hres
    subst hres
    exact houtcome

/-- C5 witness: the failure branch evaluated for the shell command `false`
exiting with code 1 under root `/root`. -/
theorem c5_spawned_command_never_raises_witness :
    executeCommand "/root" (some (.str "false")) {}
        (Except.error
          { exitCode := some 1, stdout := some "", stderr := some "",
            shortMessage := some "Command failed with exit code 1: false",
            message := "Command failed with exit code 1: false" }) =
        Except.ok
          { ok := false, exitCode := (some (1 : Int)).getD 1,
            stdout := jsTrimOpt (some ""), stderr := jsTrimOpt (some ""),
            error := some (commandErrorMessage
              { exitCode := some 1, stdout := some "",
                stderr := some "", shortMessage := some "Command failed with exit code 1: false",
                message := "Command failed with exit code 1: false" }) } ∧
      commandErrorMessage
        { exitCode := some (1 : Int), stdout := some "", stderr := some "",
          shortMessage := some "Command failed with exit code 1: false",
          message := "Command failed with exit code 1: false" } ≠ "" :=
  (c5_spawned_command_never_raises "/root" (some (.str "false")) {}
      (Except.error
        { exitCode := some 1, stdout := some "", stderr := some "",
          shortMessage := some "Command failed with exit code 1: false",
          message := "Command failed with exit code 1: false" }) "/root"
      (by decide) (by decide)
      (fun xs h => by injection h with h2; exact CommandArg.noConfusion h2)).1
    { exitCode := some 1, stdout := some "", stderr := some "",
      shortMessage := some "Command failed with exit code 1: false",
      message := "Command failed with exit code 1: false" } rfl

/-! ## FileOps state

The on-disk state visible to `exists` and `getFile`/`readFile` is an oracle:
which absolute paths exist, which are regular files, and their text
content. -/

/-- Filesystem-state oracle for the operations that consult the disk. -/
structure Fs where
  pathExists : String → Bool
  isFile : String → Bool
  fileContent : String → String

/-- Embedding of `LocalFileSystemProvider.exists` (lines 115-122): resolve
inside a `try`; any resolution failure is caught and returned as `false`;
otherwise `fs.pathExists` decides the answer.  The `Except` result type
records that the method could in principle propagate an exception; the claim
is that it never does. -/
def existsOp (fs : Fs) (rootDirectory filePath : String) : Except String Bool :=
  match relativeOrAbsolutePathToAbsolutePath rootDirectory filePath with
  | Except.ok absolutePath => Except.ok (fs.pathExists absolutePath)
  | Except.error _ => Except.ok false

/-- Embedding of `LocalFileSystemProvider.readFile` (lines 87-98, also used
as `getFile` by `grep`): resolution failures propagate, a missing path or a
non-file raise, otherwise the content is returned. -/
def getFile (fs : Fs) (rootDirectory filePath : String) : Except String String :=
  match relativeOrAbsolutePathToAbsolutePath rootDirectory filePath with
  | Except.error e => Except.error e
  | Except.ok absolutePath =>
    if !fs.pathExists absolutePath then
      Except.error ("File " ++ filePath ++ " does not exist")
    else if !fs.isFile absolutePath then
      Except.error ("Path " ++ filePath ++ " is not a file")
    else Except.ok (fs.fileContent absolutePath)

/-- C6: `exists` is total — for every input and every filesystem state it
returns a boolean and never raises; when path resolution fails the failure is
converted to `false`.  By contrast `getFile` (the read operation sharing the
same resolution step) propagates the same resolution failure as an error, so
the degradation is specific to `exists`. -/
theorem c6_exists_never_raises (fs : Fs) (rootDirectory filePath : String) :
    (∃ b, existsOp fs rootDirectory filePath = Except.ok b) ∧
      (∀ e, relativeOrAbsolutePathToAbsolutePath rootDirectory filePath = Except.error e →
        existsOp fs rootDirectory filePath = Except.ok false ∧
          getFile fs rootDirectory filePath = Except.error e) := by
  constructor
  · unfold existsOp
    cases relativeOrAbsolutePathToAbsolutePath rootDirectory filePath with
    | ok a => exact ⟨fs.pathExists a, rfl⟩
    | error e => exact ⟨false, rfl⟩
  · intro e he
    unfold existsOp getFile
    rw [he]
    exact ⟨rfl, rfl⟩

/-- C6 witness: an out-of-root input on an empty filesystem: resolution
fails, `exists` returns `false`, `getFile` propagates the error. -/
theorem c6_exists_never_raises_witness :
    existsOp ⟨fun _ => false, fun _ => false, fun _ => ""⟩ "/root" "/etc/passwd" =
        Except.ok false ∧
      getFile ⟨fun _ => false, fun _ => false, fun _ => ""⟩ "/root" "/etc/passwd" =
        Except.error "Path /etc/passwd is outside the root directory" :=
  (c6_exists_never_raises ⟨fun _ => false, fun _ => false, fun _ => ""⟩ "/root"
      "/etc/passwd").2 "Path /etc/passwd is outside the root directory" (by decide)

/-! ## TreeWalker (`getDirectoryTree`, src/LocalFileSystemProvider.ts lines 345-368)

A directory tree is a finite inductive tree; `readdir` of a directory is the
`children` list in OS order.  The walk yields entries as a pair of the
root-relative segment list and an is-directory flag; the string the source
yields is `renderRel` of the segments, with a trailing slash appended for
directories (`yield relPath + "/"`).  The ignore predicate is applied to the
root-relative path string (no trailing slash), exactly as in the source; the
recursive call passes only the ignore filter, so recursion below the first
level always uses the default `recursive = true`. -/

/-- A directory entry: a file, or a directory with its children in
`readdir` order. -/
inductive FsEntry where
  | file (name : String) : FsEntry
  | dir (name : String) (children : List FsEntry) : FsEntry

mutual

/-- One iteration of the `for` loop of `getDirectoryTree`: compute the
root-relative path of the item, skip it if ignored, otherwise yield it (with
directory marker) and, for a directory, recurse when `recursive` holds. -/
def getDirectoryTreeItem (ignoreFilter : String → Bool) (recursive : Bool)
    (dirSegs : List String) : FsEntry → List (List String × Bool)
  | .file name =>
    if ignoreFilter (renderRel (dirSegs ++ [name])) then []
    else [(dirSegs ++ [name], false)]
  | .dir name children =>
    if ignoreFilter (renderRel (dirSegs ++ [name])) then []
    else
      (dirSegs ++ [name], true) ::
        (if recursive then getDirectoryTreeAux ignoreFilter true (dirSegs ++ [name]) children
         else [])

/-- The `for` loop of `getDirectoryTree` over the items of one directory. -/
def getDirectoryTreeAux (ignoreFilter : String → Bool) (recursive : Bool)
    (dirSegs : List String) : List FsEntry → List (List String × Bool)
  | [] => []
  | item :: items =>
    getDirectoryTreeItem ignoreFilter recursive dirSegs item ++
      getDirectoryTreeAux ignoreFilter recursive dirSegs items

end

/-- Embedding of `getDirectoryTree("", ...)`: walk the whole tree under the
root directory. -/
def getDirectoryTree (ignoreFilter : String → Bool) (recursive : Bool)
    (rootEntries : List FsEntry) : List (List String × Bool) :=
  getDirectoryTreeAux ignoreFilter recursive [] rootEntries

-- sanity check of the walker
example :
    getDirectoryTree (fun s => s == "skip") true
        [.file "a", .dir "skip" [.file "c"], .dir "d" [.file "e"]] =
      [(["a"], false), (["d"], true), (["d", "e"], false)] := by decide

/-- Helper (shared by the traversal claims): every entry yielded by the walk
of `items` below `dirSegs` extends `dirSegs` by a non-empty suffix none of
whose intermediate paths — the entry's own root-relative path included — is
ignored. -/
theorem getDirectoryTreeAux_not_ignored (ignoreFilter : String → Bool) :
    ∀ (recursive : Bool) (dirSegs : List String) (items : List FsEntry),
      ∀ p ∈ getDirectoryTreeAux ignoreFilter recursive dirSegs items,
        ∃ suf, p.1 = dirSegs ++ suf ∧ suf ≠ [] ∧
          ∀ k, k < suf.length →
            ignoreFilter (renderRel (dirSegs ++ suf.take (k + 1))) = false := by
  refine getDirectoryTreeAux.induct ignoreFilter
    (fun recursive dirSegs item =>
      ∀ p ∈ getDirectoryTreeItem ignoreFilter recursive dirSegs item,
        ∃ suf, p.1 = dirSegs ++ suf ∧ suf ≠ [] ∧
          ∀ k, k < suf.length →
            ignoreFilter (renderRel (dirSegs ++ suf.take (k + 1))) = false)
    (fun recursive dirSegs items =>
      ∀ p ∈ getDirectoryTreeAux ignoreFilter recursive dirSegs items,
        ∃ suf, p.1 = dirSegs ++ suf ∧ suf ≠ [] ∧
          ∀ k, k < suf.length →
            ignoreFilter (renderRel (dirSegs ++ suf.take (k + 1))) = false)
    ?_ ?_ ?_ ?_ ?_ ?_
  · intro recursive dirSegs n hig p hp
    simp [getDirectoryTreeItem, hig] at hp
  · intro recursive dirSegs n hig p hp
    have hfalse : ignoreFilter (renderRel (dirSegs ++ [n])) = false := by
      revert hig
      cases ignoreFilter (renderRel (dirSegs ++ [n])) <;> simp
    simp [getDirectoryTreeItem, hfalse] at hp
    subst hp
    refine ⟨[n], rfl, by simp, ?_⟩
    intro k hk
    have hk0 : k = 0 := by simpa using hk
    subst hk0
    simpa using hfalse
  · intro recursive dirSegs n children hig p hp
    simp [getDirectoryTreeItem, hig] at hp
  · intro recursive dirSegs n children hig ih p hp
    have hfalse : ignoreFilter (renderRel (dirSegs ++ [n])) = false := by
      revert hig
      cases ignoreFilter (renderRel (dirSegs ++ [n])) <;> simp
    simp only [getDirectoryTreeItem, hfalse, Bool.false_eq_true, if_false,
      List.mem_cons] at hp
    rcases hp with hp | hp
    · subst hp
      refine ⟨[n], rfl, by simp, ?_⟩
      intro k hk
      have hk0 : k = 0 := by simpa using hk
      subst hk0
      simpa using hfalse
    · cases recursive with
      | false => simp at hp
      | true =>
        rw [if_pos rfl] at hp
        obtain ⟨suf, h1, hne, h3⟩ := ih p hp
        refine ⟨n :: suf, by simp [h1], by simp, ?_⟩
        intro k hk
        cases k with
        | zero => simpa using hfalse
        | succ j =>
          have hj : j < suf.length := by simpa using hk
          have := h3 j hj
          rw [List.take_succ_cons, List.append_cons]
          exact this
  · intro recursive dirSegs p hp
    simp [getDirectoryTreeAux] at hp
  · intro recursive dirSegs e es ih1 ih2 p hp
    rw [getDirectoryTreeAux, List.mem_append] at hp
    rcases hp with hp | hp
    · exact ih1 p hp
    · exact ih2 p hp

/-- C7: the walk never yields an entry whose own root-relative path, or the
root-relative path of any ancestor directory below the walk root, satisfies
the ignore predicate: an ignored directory is pruned together with all of its
descendants. -/
theorem c7_walk_never_yields_ignored (ignoreFilter : String → Bool) (recursive : Bool)
    (rootEntries : List FsEntry) (entry : List String × Bool)
    (hmem : entry ∈ getDirectoryTree ignoreFilter recursive rootEntries) :
    ∀ k, k < entry.1.length →
      ignoreFilter (renderRel (entry.1.take (k + 1))) = false := by
  obtain ⟨suf, h1, _, h3⟩ :=
    getDirectoryTreeAux_not_ignored ignoreFilter recursive [] rootEntries entry hmem
  intro k hk
  have h1' : entry.1 = suf := by simpa using h1
  rw [h1']
  rw [h1'] at hk
  simpa using h3 k hk

/-- C7 witness: in a tree with an ignored directory, the deep entry
`sub/f.txt` is yielded and neither it nor its ancestor `sub` is ignored. -/
theorem c7_walk_never_yields_ignored_witness :
    (fun s => s == "ignored") (renderRel ((["sub", "f.txt"] : List String).take 1)) = false ∧
      (fun s => s == "ignored") (renderRel ((["sub", "f.txt"] : List String).take 2)) = false :=
  ⟨c7_walk_never_yields_ignored (fun s => s == "ignored") true
      [.file "a.txt", .dir "sub" [.file "f.txt"], .dir "ignored" [.file "g.txt"]]
      (["sub", "f.txt"], false) (by decide) 0 (by decide),
    c7_walk_never_yields_ignored (fun s => s == "ignored") true
      [.file "a.txt", .dir "sub" [.file "f.txt"], .dir "ignored" [.file "g.txt"]]
      (["sub", "f.txt"], false) (by decide) 1 (by decide)⟩

/-! ## SearchEngine (`grep`, src/LocalFileSystemProvider.ts lines 291-343)

`grep` first collects `allFiles` by walking the tree from `""` with the
ignore filter and joining each yielded string onto the root directory
(`path.join`), then — when an ignore filter is supplied — post-filters that
list with the same predicate applied to the joined absolute strings, and
finally scans each remaining file line by line. -/

/-- Model of `path.join(root, s)` for an absolute `root` and a clean relative
`s`: concatenate and normalise, preserving a trailing slash of `s` as
`path.join` does. -/
def pathJoin (root s : String) : String :=
  renderAbs (normSegs (splitSegs root ++ splitSegs s)) ++
    (if endsWithSlash s then "/" else "")

/-- The string the walk generator yields for an entry: the root-relative path,
with a trailing slash marking a directory. -/
def entryString (e : List String × Bool) : String :=
  renderRel e.1 ++ (if e.2 then "/" else "")

/-- Embedding of grep's collection loop (lines 302-305): every walked entry,
joined onto the root directory. -/
def grepAllFiles (ignoreFilter : String → Bool) (rootDirectory : String)
    (rootEntries : List FsEntry) : List String :=
  (getDirectoryTree ignoreFilter true rootEntries).map
    (fun file => pathJoin rootDirectory (entryString file))

/-- Embedding of grep's post-filter (line 307) in the case where an ignore
filter is supplied: keep the joined paths the predicate rejects. -/
def grepFilesToSearch (ignoreFilter : String → Bool) (rootDirectory : String)
    (rootEntries : List FsEntry) : List String :=
  (grepAllFiles ignoreFilter rootDirectory rootEntries).filter
    (fun file => !ignoreFilter file)

/-- C10: with an ignore filter supplied, grep applies it both during the walk
(to root-relative paths, pruning) and as a post-filter (to the root-joined
absolute path of each walked entry): every searched file passed the predicate
in both shapes — the predicate is false on its absolute joined form and on
its root-relative form. -/
theorem c10_grep_filters_relative_and_absolute (ignoreFilter : String → Bool)
    (rootDirectory : String) (rootEntries : List FsEntry) (f : String)
    (hf : f ∈ grepFilesToSearch ignoreFilter rootDirectory rootEntries) :
    ignoreFilter f = false ∧
      ∃ e ∈ getDirectoryTree ignoreFilter true rootEntries,
        f = pathJoin rootDirectory (entryString e) ∧
          ignoreFilter (renderRel e.1) = false := by
  obtain ⟨hmem, hfilt⟩ := List.mem_filter.mp hf
  obtain ⟨e, hemem, hfe⟩ := List.mem_map.mp hmem
  refine ⟨by simpa using hfilt, e, hemem, hfe.symm, ?_⟩
  obtain ⟨suf, h1, hne, h3⟩ :=
    getDirectoryTreeAux_not_ignored ignoreFilter true [] rootEntries e hemem
  have h1' : e.1 = suf := by simpa using h1
  have hlen : 0 < suf.length := List.length_pos.mpr hne
  have h := h3 (suf.length - 1) (by omega)
  rw [Nat.sub_add_cancel hlen, List.take_length] at h
  rw [h1']
  simpa using h

/-- C10 witness: the searched file `/root/sub/f.txt` passed the ignore
predicate both as `sub/f.txt` (relative, during the walk) and as
`/root/sub/f.txt` (absolute, in the post-filter). -/
theorem c10_grep_filters_relative_and_absolute_witness :
    (fun s => s == "ignored") "/root/sub/f.txt" = false ∧
      ∃ e ∈ getDirectoryTree (fun s => s == "ignored") true
          [FsEntry.file "a.txt", FsEntry.dir "sub" [FsEntry.file "f.txt"],
            FsEntry.dir "ignored" [FsEntry.file "g.txt"]],
        "/root/sub/f.txt" = pathJoin "/root" (entryString e) ∧
          (fun s => s == "ignored") (renderRel e.1) = false :=
  c10_grep_filters_relative_and_absolute (fun s => s == "ignored") "/root"
    [FsEntry.file "a.txt", FsEntry.dir "sub" [FsEntry.file "f.txt"],
      FsEntry.dir "ignored" [FsEntry.file "g.txt"]]
    "/root/sub/f.txt" (by decide)

/-! ## Per-file line scan of `grep` (lines 315-336)

The file content is split on newline; the inner `for` loop walks the 0-based
line indices, pushing one result per line containing the search string, with
the 1-based line number and, when a context window is requested, the joined
clamped slice `lines.slice(startLine, endLine + 1)`. -/

/-- A grep match: 1-based line number, the raw matching line, and the
optional context block. -/
structure MatchResult where
  line : Nat
  matchLine : String
  content : Option String
deriving DecidableEq

/-- Model of `line.includes(searchString)`: plain substring containment (for
a non-empty search string, exactly JavaScript's behaviour). -/
def jsIncludes (line searchString : String) : Bool :=
  decide (searchString.toList <:+: line.toList)

/-- The clamped context window of the source: indices
`[max(0, lineNum - linesBefore), min(lines.length - 1, lineNum + linesAfter)]`
as a slice of the line list. -/
def grepContextWindow (linesBefore linesAfter : Nat) (lines : List String)
    (lineNum : Nat) : List String :=
  let startLine := max 0 (lineNum - linesBefore)
  let endLine := min (lines.length - 1) (lineNum + linesAfter)
  (lines.drop startLine).take (endLine + 1 - startLine)

/-- Embedding of the inner loop of `grep` over the lines of one file: the
`for (let lineNum = 0; ...)` loop accumulating `results.push(...)`.  Context
parameters are the (non-negative) `linesBefore`/`linesAfter` options. -/
def grepFileLines (searchString : String) (linesBefore linesAfter : Nat)
    (lines : List String) : List MatchResult :=
  (List.range lines.length).foldl
    (fun results lineNum =>
      if jsIncludes (lines.getD lineNum "") searchString then
        results ++
          [{ line := lineNum + 1, matchLine := lines.getD lineNum "",
             content :=
               if 0 < linesBefore ∨ 0 < linesAfter then
                 some (String.intercalate "\n"
                   (grepContextWindow linesBefore linesAfter lines lineNum))
               else none }]
      else results)
    []

/-- Specification-side description of the scan, following the words of the
claim: one result per line containing the search string as a plain substring,
with 1-based line number, and the joined clamped window as content exactly
when a context parameter is positive. -/
def grepFileLinesSpec (searchString : String) (linesBefore linesAfter : Nat)
    (lines : List String) : List MatchResult :=
  (List.range lines.length).filterMap fun lineNum =>
    if jsIncludes (lines.getD lineNum "") searchString then
      some
        { line := lineNum + 1, matchLine := lines.getD lineNum "",
          content :=
            if 0 < linesBefore ∨ 0 < linesAfter then
              some (String.intercalate "\n"
                (grepContextWindow linesBefore linesAfter lines lineNum))
            else none }
    else none

/-- Helper: a fold that conditionally pushes one element per input equals the
accumulator followed by the corresponding filterMap. -/
theorem foldl_push_eq_filterMap {α β : Type} (p : α → Bool) (f : α → β) :
    ∀ (l : List α) (acc : List β),
      l.foldl (fun results x => if p x then results ++ [f x] else results) acc =
        acc ++ l.filterMap (fun x => if p x then some (f x) else none) := by
  intro l
  induction l with
  | nil => intro acc; simp
  | cons x xs ih =>
    intro acc
    by_cases hp : p x = true
    · simp [List.foldl_cons, hp, ih, List.filterMap_cons]
    · have hp' : p x = false := by
        revert hp
        cases p x <;> simp
      simp [List.foldl_cons, hp', ih, List.filterMap_cons]

/-- C8: for a non-empty search string, the scan yields exactly one result per
line containing it as a plain substring, with 1-based line numbers and the
joined clamped context window as content exactly when a context parameter is
positive (`grepFileLinesSpec` states this claim); and when no clamping
occurs the window holds exactly `linesBefore + linesAfter + 1` lines. -/
theorem c8_grep_one_result_per_matching_line (searchString : String)
    (hs : searchString ≠ "") (linesBefore linesAfter : Nat) (lines : List String) :
    grepFileLines searchString linesBefore linesAfter lines =
        grepFileLinesSpec searchString linesBefore linesAfter lines ∧
      ∀ lineNum, linesBefore ≤ lineNum → lineNum + linesAfter + 1 ≤ lines.length →
        (grepContextWindow linesBefore linesAfter lines lineNum).length =
          linesBefore + linesAfter + 1 := by
  constructor
  · unfold grepFileLines grepFileLinesSpec
    rw [foldl_push_eq_filterMap
      (fun lineNum => jsIncludes (lines.getD lineNum "") searchString)
      (fun lineNum =>
        ({ line := lineNum + 1, matchLine := lines.getD lineNum "",
           content :=
             if 0 < linesBefore ∨ 0 < linesAfter then
               some (String.intercalate "\n"
                 (grepContextWindow linesBefore linesAfter lines lineNum))
             else none } : MatchResult))]
    simp
  · intro lineNum hb ha
    unfold grepContextWindow
    simp only [List.length_take, List.length_drop]
    omega

/-- C8 witness: a three-line file with one matching line and a symmetric
context window of one line on each side. -/
theorem c8_grep_one_result_per_matching_line_witness :
    grepFileLines "x" 1 1 ["l1", "has x", "l3"] =
        grepFileLinesSpec "x" 1 1 ["l1", "has x", "l3"] ∧
      (grepContextWindow 1 1 ["l1", "has x", "l3"] 1).length = 3 :=
  ⟨(c8_grep_one_result_per_matching_line "x" (by decide) 1 1 ["l1", "has x", "l3"]).1,
    (c8_grep_one_result_per_matching_line "x" (by decide) 1 1 ["l1", "has x", "l3"]).2
      1 (by decide) (by decide)⟩

/-! ## Watcher ignore decision (`watch`, src/LocalFileSystemProvider.ts lines 208-239)

The `ignored` callback handed to chokidar: the current-directory markers are
never ignored, a leading `./` is stripped, and the supplied ignore predicate
is evaluated inside a `try` whose `catch` returns `true`.  A predicate that
may throw is modelled as returning `Except`. -/

/-- The path normalisation step of the callback: strip one leading `./`. -/
def stripDotSlash (file : String) : String :=
  if startsWithStr file "./" then dropStr 2 file else file

/-- Embedding of the `ignored` callback installed by `watch`. -/
def watchIgnored (ignoreFilter : String → Except String Bool) (file : String) : Bool :=
  if file == "." || file == "./" then false
  else
    match ignoreFilter (stripDotSlash file) with
    | Except.ok b => b
    | Except.error _ => true

/-- Embedding of the `ignored` callback installed by the legacy `watch` of
`src/unnamed/part_000` (lines 321-350): the same root-marker check and `./`
strip, but the predicate call `return ig(file)` stands in no `try`, so a
raising predicate propagates out of the callback (hence the `Except` result
type). -/
def legacyWatchIgnored (ignoreFilter : String → Except String Bool)
    (file : String) : Except String Bool :=
  if file == "." || file == "./" then Except.ok false
  else ignoreFilter (stripDotSlash file)

/-- C9 counterexample: the claim's fail-safe clause fails on the cited legacy
watch: when the predicate raises on `boom`, the legacy callback propagates
the exception instead of returning `true`, while the current provider's
callback on the same input returns `true`. -/
theorem c9_legacy_watch_propagates_predicate_exception :
    legacyWatchIgnored
        (fun s => if s == "boom" then Except.error "E" else Except.ok false)
        "./boom" = Except.error "E" ∧
      watchIgnored
        (fun s => if s == "boom" then Except.error "E" else Except.ok false)
        "./boom" = true := by
  decide

/-- C9 (amended): for the ignore decision function installed by the current
provider's `watch` (`src/LocalFileSystemProvider.ts`): the root markers `.`
and `./` are never ignored regardless of the predicate, a leading `./` is
stripped before the predicate is applied and its verdict is returned, and a
raising predicate is treated as ignored (the decision returns `true`); the
legacy watch callback of `src/unnamed/part_000` shares the first two
behaviours but propagates a predicate exception instead. -/
theorem c9_watch_ignored_characterisation (ignoreFilter : String → Except String Bool)
    (file : String) :
    ((file = "." ∨ file = "./") → watchIgnored ignoreFilter file = false) ∧
      (file ≠ "." → file ≠ "./" →
        (∀ b, ignoreFilter (stripDotSlash file) = Except.ok b →
          watchIgnored ignoreFilter file = b) ∧
        (∀ e, ignoreFilter (stripDotSlash file) = Except.error e →
          watchIgnored ignoreFilter file = true)) := by
  constructor
  · intro h
    rcases h with h | h <;> subst h <;> rfl
  · intro h1 h2
    have hcond : (file == "." || file == "./") = false := by
      simp only [Bool.or_eq_false_iff, beq_eq_false_iff_ne, ne_eq]
      exact ⟨h1, h2⟩
    constructor
    · intro b hb
      unfold watchIgnored
      rw [hcond]
      simp only [Bool.false_eq_true, if_false, hb]
    · intro e he
      unfold watchIgnored
      rw [hcond]
      simp only [Bool.false_eq_true, if_false, he]

/-- C9 witness: the root marker is not ignored, a `./`-prefixed path is
judged by the predicate on the stripped path, and a path on which the
predicate raises is ignored. -/
theorem c9_watch_ignored_characterisation_witness :
    watchIgnored
        (fun s => if s == "boom" then Except.error "E" else Except.ok (s == "node_modules"))
        "./" = false ∧
      watchIgnored
        (fun s => if s == "boom" then Except.error "E" else Except.ok (s == "node_modules"))
        "./src/main.ts" = false ∧
      watchIgnored
        (fun s => if s == "boom" then Except.error "E" else Except.ok (s == "node_modules"))
        "./boom" = true :=
  ⟨(c9_watch_ignored_characterisation
      (fun s => if s == "boom" then Except.error "E" else Except.ok (s == "node_modules"))
      "./").1 (Or.inr rfl),
    ((c9_watch_ignored_characterisation
      (fun s => if s == "boom" then Except.error "E" else Except.ok (s == "node_modules"))
      "./src/main.ts").2 (by decide) (by decide)).1 false (by decide),
    ((c9_watch_ignored_characterisation
      (fun s => if s == "boom" then Except.error "E" else Except.ok (s == "node_modules"))
      "./boom").2 (by decide) (by decide)).2 "E" (by decide)⟩
